import Mathlib

/-!
Verification development for the production OCR service (src/app.py).

The embedding below follows the source file closely:
- `extract_text`, `enginesToTry`, `loopEngines` embed
  `ProductionOCREngine.extract_text` (app.py lines 99-152); the concrete
  recognition backends (EasyOCR, PaddleOCR, Tesseract, the OpenCV contour
  fallback) are external collaborators and are modelled as an oracle
  `run : String -> List String -> ExtractResult` giving, for each engine name
  and language list, either the text the backend returned or the message of
  the exception it raised on the (fixed) preprocessed image.
- `process_images_background`, `fileLoop`, `runnerTrace` embed the background
  task runner (lines 498-551); `upload_files`, `get_progress_handler`,
  `cleanup_old_tasks` embed the corresponding request handlers.
- Python computes the progress percentage in IEEE-754 double precision:
  `int((i / len(files)) * 100)`.  `pyProgress` models that expression
  exactly (round to nearest double, ties to even, at each operation) using
  only integer arithmetic; it is valid for magnitudes in [2^-100, 2^100),
  which covers every value arising here.  Time values (`time.time()`) are
  modelled as rationals.
-/

/-- Round the rational num/den (den > 0) to the nearest integer, ties to even
(the rounding used for IEEE-754 mantissas). -/
def rdiv (num den : ℤ) : ℤ :=
  let f := num.fdiv den
  let r2 := 2 * (num - f * den)
  if r2 < den then f
  else if den < r2 then f + 1
  else if f % 2 = 0 then f else f + 1

/-- Exponent e with 2^e <= num/den < 2^(e+1), for positive rationals with
magnitude in [2^-100, 2^100); computed by counting which powers of two are
at most num/den. -/
def qexp (num den : ℤ) : ℤ :=
  (((List.range 200).filter
      (fun k => decide (den.natAbs * 2 ^ k ≤ num.natAbs * 2 ^ 100))).length : ℤ) - 101

/-- Round the positive rational num/den to the nearest IEEE-754 double
(53-bit mantissa, round to nearest, ties to even).  Returns the pair
(m, e): the value of the double is m * 2 ^ (e - 52). -/
def floatOfRat (num den : ℤ) : ℤ × ℤ :=
  let e := qexp num den
  let m := if 0 ≤ 52 - e then rdiv (num * 2 ^ (52 - e).toNat) den
           else rdiv num (den * 2 ^ (e - 52).toNat)
  (m, e)

/-- The value of the Python expression `int((i / n) * 100)` (app.py line 506):
true division rounds i/n to a double, the product with 100 is again rounded
to a double, and `int` truncates toward zero (floor, as the value is
nonnegative).  Only invoked with 0 < n (the file loop body runs only for a
nonempty file list). -/
def pyProgress (i n : Nat) : Nat :=
  let p1 := floatOfRat (i : ℤ) (n : ℤ)
  let num2 : ℤ := p1.1 * 100
  let p2 := if 0 ≤ p1.2 - 52 then floatOfRat (num2 * 2 ^ (p1.2 - 52).toNat) 1
            else floatOfRat num2 (2 ^ (52 - p1.2).toNat)
  (if 0 ≤ p2.2 - 52 then p2.1 * 2 ^ (p2.2 - 52).toNat
   else p2.1.fdiv (2 ^ (52 - p2.2).toNat)).toNat

set_option maxRecDepth 40000

/-! ## OCR engine (ProductionOCREngine, app.py lines 35-215) -/

/-- Outcome of invoking one recognition backend on the preprocessed image
with the given languages: the text it returned, or the message of the
exception it raised.  The backends themselves (lines 154-215) wrap external
libraries and are treated as an external collaborator boundary. -/
inductive ExtractResult where
  | ok (text : String)
  | exn (msg : String)
deriving DecidableEq

/-- Which of the four candidate backends registered successfully during
`_initialize_engines` (lines 43-93).  `self.engines` is a dict whose
insertion order is easyocr, paddleocr, tesseract, opencv. -/
structure Registry where
  easyocr : Bool
  paddleocr : Bool
  tesseract : Bool
  opencv : Bool
deriving DecidableEq

/-- The keys of `self.engines`, in dict insertion (= registration) order. -/
def Registry.keys (r : Registry) : List String :=
  (if r.easyocr then ["easyocr"] else []) ++
  (if r.paddleocr then ["paddleocr"] else []) ++
  (if r.tesseract then ["tesseract"] else []) ++
  (if r.opencv then ["opencv"] else [])

/-- `is_ready` (lines 95-97): `len(self.engines) > 0`. -/
def Registry.is_ready (r : Registry) : Bool :=
  !r.keys.isEmpty

/-- `engines_to_try` (lines 108-115): all keys in high_accuracy mode;
otherwise the advanced engines present among easyocr, paddleocr, tesseract,
falling back to opencv only when none of those is registered. -/
def enginesToTry (r : Registry) (mode : String) : List String :=
  if mode == "high_accuracy" then r.keys
  else
    let et := ["easyocr", "paddleocr", "tesseract"].filter (fun e => r.keys.contains e)
    if et.isEmpty && r.keys.contains "opencv" then ["opencv"] else et

/-- The whitespace characters stripped by Python `str.strip()` (the ASCII
ones; the engine texts here are ASCII). -/
def isSpaceChar (c : Char) : Bool :=
  c == ' ' || c == '\t' || c == '\n' || c == '\r' || c == '\x0b' || c == '\x0c'

/-- The model of Python `str.strip()`: drop whitespace from both ends. -/
def pyStrip (s : String) : String :=
  String.mk (((s.toList.dropWhile isSpaceChar).reverse.dropWhile isSpaceChar).reverse)

/-- ASCII lower-casing of one character (the filenames and engine names
handled here are ASCII, so this matches Python `str.lower`). -/
def lowerChar (c : Char) : Char :=
  if 65 ≤ c.toNat && c.toNat ≤ 90 then Char.ofNat (c.toNat + 32) else c

/-- ASCII upper-casing of one character (matches Python `str.upper` on the
engine names). -/
def upperChar (c : Char) : Char :=
  if 97 ≤ c.toNat && c.toNat ≤ 122 then Char.ofNat (c.toNat - 32) else c

/-- The model of Python `str.lower()`. -/
def pyLower (s : String) : String :=
  String.mk (s.toList.map lowerChar)

/-- The model of Python `str.upper()`. -/
def pyUpper (s : String) : String :=
  String.mk (s.toList.map upperChar)

/-- Stats collected by the engine loop (lines 104-139): the `results` and
`errors` lists of the source, plus a ghost field `invoked` recording, in
order, the engines on which a backend call was made (observation of control
flow only; not part of the source state). -/
structure LoopOut where
  results : List String
  errors : List String
  invoked : List String
deriving DecidableEq

/-- The `for engine_name in engines_to_try` loop (lines 117-139): a raised
exception appends to `errors` and continues; non-empty trimmed text is
appended labeled in high_accuracy mode, or appended trimmed and breaks the
loop in any other mode; empty text continues silently. -/
def loopEngines (run : String → List String → ExtractResult) (mode : String)
    (languages : List String) : List String → LoopOut
  | [] => ⟨[], [], []⟩
  | e :: rest =>
    match run e languages with
    | ExtractResult.exn msg =>
        let o := loopEngines run mode languages rest
        ⟨o.results, (e ++ " failed: " ++ msg) :: o.errors, e :: o.invoked⟩
    | ExtractResult.ok t =>
        if pyStrip t == "" then
          let o := loopEngines run mode languages rest
          ⟨o.results, o.errors, e :: o.invoked⟩
        else if mode == "high_accuracy" then
          let o := loopEngines run mode languages rest
          ⟨("[" ++ pyUpper e ++ "]\n" ++ pyStrip t) :: o.results, o.errors, e :: o.invoked⟩
        else
          ⟨[pyStrip t], [], [e]⟩

/-- The model of Python `sep.join(xs)`. -/
def joinSep (sep : String) : List String → String
  | [] => ""
  | [a] => a
  | a :: b :: rest => a ++ sep ++ joinSep sep (b :: rest)

/-- The sentinel returned when no engine is registered (line 102). -/
def sentinel_unavailable : String :=
  "No OCR engines available. Please install easyocr, paddleocr, or tesseract."

/-- `extract_text` (lines 99-152).  The outer try/except (lines 107, 150-152)
never fires in this model: the per-engine calls are the only faulting
operations in its body and each is caught by the inner per-engine except. -/
def extract_text (r : Registry) (run : String → List String → ExtractResult)
    (mode : String) (languages : List String) : String :=
  if !r.is_ready then sentinel_unavailable
  else
    let o := loopEngines run mode languages (enginesToTry r mode)
    if !o.results.isEmpty then joinSep "\n\n" o.results
    else
      "Text extraction failed. Errors: " ++
        (if !o.errors.isEmpty then joinSep "; " o.errors else "No text detected")

/-- Labels an engine with its error entry, as the loop does on a raised
exception (line 136). -/
def errLabel (run : String → List String → ExtractResult) (languages : List String)
    (e : String) : Option String :=
  match run e languages with
  | ExtractResult.exn msg => some (e ++ " failed: " ++ msg)
  | ExtractResult.ok _ => none

/-- Labels an engine with its high_accuracy section when its trimmed output
is non-empty (line 130). -/
def okLabel (run : String → List String → ExtractResult) (languages : List String)
    (e : String) : Option String :=
  match run e languages with
  | ExtractResult.ok t =>
      if pyStrip t == "" then none else some ("[" ++ pyUpper e ++ "]\n" ++ pyStrip t)
  | ExtractResult.exn _ => none

/-- An engine whose call raises, or returns text that trims to empty:
in any non-high_accuracy mode the loop moves past it. -/
def failsOrEmpty (run : String → List String → ExtractResult) (languages : List String)
    (e : String) : Bool :=
  match run e languages with
  | ExtractResult.exn _ => true
  | ExtractResult.ok t => pyStrip t == ""

/-! ## Task store and records (app.py lines 293-312, 399-411) -/

/-- One entry of the `results` list of a task (lines 522-526 and 533-537). -/
structure ResultEntry where
  filename : String
  text : String
  processed_at : String
deriving DecidableEq

/-- A record of `processing_tasks` (lines 403-411).  `completed_at` and
`estimated_remaining` are absent until first written, hence `Option`.
Timestamps (`time.time()`) are modelled as rationals. -/
structure TaskRec where
  status : String
  progress : Nat
  files_processed : Nat
  total_files : Nat
  results : List ResultEntry
  error : Option String
  created_at : ℚ
  completed_at : Option ℚ
  estimated_remaining : Option ℚ
deriving DecidableEq

/-- The record created by the submission handler (lines 403-411). -/
def new_task (now : ℚ) (total : Nat) : TaskRec :=
  { status := "starting", progress := 0, files_processed := 0, total_files := total,
    results := [], error := none, created_at := now, completed_at := none,
    estimated_remaining := none }

/-- `processing_tasks` modelled as an association list (first match wins,
like a dict lookup; insertion order is irrelevant to the claims). -/
def storeFind (store : List (String × TaskRec)) (id : String) : Option TaskRec :=
  (store.find? (fun p => p.1 == id)).map (fun p => p.2)

/-- In-place mutation of the record held under `id` (a dict entry update). -/
def storeSet (store : List (String × TaskRec)) (id : String) (t : TaskRec) :
    List (String × TaskRec) :=
  store.map (fun p => if p.1 == id then (id, t) else p)

/-- `task_cleanup_threshold = 3600` (line 295). -/
def task_cleanup_threshold : ℚ := 3600

/-- `cleanup_old_tasks` (lines 297-312): removes every task whose age
`current_time - created_at` exceeds the threshold, and nothing else. -/
def cleanup_old_tasks (now : ℚ) (store : List (String × TaskRec)) :
    List (String × TaskRec) :=
  store.filter (fun p => !(decide (now - p.2.created_at > task_cleanup_threshold)))

/-! ## Background runner (process_images_background, app.py lines 498-551) -/

/-- How processing one uploaded file goes: `exn msg` if reading the file or
`ImageProcessor.preprocess_image` raises (lines 510-516), else the behavior
of the recognition backends on the preprocessed image, as the oracle passed
to `extract_text` (line 519; `extract_text` itself never raises). -/
inductive FileFate where
  | exn (msg : String)
  | img (run : String → List String → ExtractResult)

/-- An uploaded file: its client-supplied filename, its size in bytes
(`file.seek`/`file.tell`, lines 386-388), and its processing fate. -/
structure RawFile where
  filename : String
  size : Nat
  fate : FileFate

/-- The result entry appended for file number i (0-based), lines 509-537:
on success the extracted text under the secured filename; on a per-file
exception the textual error placeholder (lines 530-537).  `sec` models
`secure_filename` from werkzeug (an external collaborator, a total function
on strings). -/
def fileEntry (sec : String → String) (reg : Registry) (mode : String)
    (languages : List String) (nowIso : String) (i : Nat) (f : RawFile) : ResultEntry :=
  match f.fate with
  | FileFate.exn msg =>
      { filename := if f.filename != "" then sec f.filename else "file_" ++ toString (i + 1),
        text := "Error processing file: " ++ msg,
        processed_at := nowIso }
  | FileFate.img run =>
      { filename := sec f.filename,
        text := extract_text reg run mode languages,
        processed_at := nowIso }

/-- The entries the loop appends for the files starting at index i. -/
def fileEntriesFrom (sec : String → String) (reg : Registry) (mode : String)
    (languages : List String) (nowIso : String) : Nat → List RawFile → List ResultEntry
  | _, [] => []
  | i, f :: rest =>
      fileEntry sec reg mode languages nowIso i f ::
        fileEntriesFrom sec reg mode languages nowIso (i + 1) rest

/-- The per-file loop (lines 504-537) on the task record: for file i it first
sets `progress = int((i / n) * 100)` and `files_processed = i`
(lines 506-507), then processes the file and appends its result entry. -/
def fileLoop (sec : String → String) (reg : Registry) (mode : String)
    (languages : List String) (nowIso : String) (n : Nat) :
    Nat → List RawFile → TaskRec → TaskRec
  | _, [], t => t
  | i, f :: rest, t =>
      let t1 := { t with progress := pyProgress i n, files_processed := i }
      let t2 := { t1 with
                  results := t1.results ++ [fileEntry sec reg mode languages nowIso i f] }
      fileLoop sec reg mode languages nowIso n (i + 1) rest t2

/-- The same loop as a trace of the task record states: for each file, the
state right after the progress/files_processed update (before the file is
read, preprocessed or extracted) and the state after its result entry is
appended.  File i (0-based) contributes trace positions 2i and 2i+1. -/
def runnerTrace (sec : String → String) (reg : Registry) (mode : String)
    (languages : List String) (nowIso : String) (n : Nat) :
    Nat → List RawFile → TaskRec → List TaskRec
  | _, [], _ => []
  | i, f :: rest, t =>
      let t1 := { t with progress := pyProgress i n, files_processed := i }
      let t2 := { t1 with
                  results := t1.results ++ [fileEntry sec reg mode languages nowIso i f] }
      t1 :: t2 :: runnerTrace sec reg mode languages nowIso n (i + 1) rest t2

/-- Outcome of the background runner thread: the final task record, or the
thread dying on an uncaught exception. -/
inductive BgOutcome where
  | finished (t : TaskRec)
  | crashed
deriving DecidableEq

/-- Projection of a finished outcome. -/
def bgTask (o : BgOutcome) (dfl : TaskRec) : TaskRec :=
  match o with
  | BgOutcome.finished t => t
  | BgOutcome.crashed => dfl

/-- `process_images_background` (lines 498-551).  The only faulting
operation outside the per-file try is the lookup
`processing_tasks[task_id]` (line 501): if it raises KeyError, the except
block (lines 547-551) dereferences the never-bound local `task` and itself
raises UnboundLocalError, killing the thread — hence `crashed`, with no
record transitioned to an error status.  Otherwise the loop runs to the end
and the final writes (lines 540-543) set completed/100/n/completed_at. -/
def process_images_background (sec : String → String) (reg : Registry) (mode : String)
    (languages : List String) (nowIso : String) (endTime : ℚ)
    (store : List (String × TaskRec)) (task_id : String) (files : List RawFile) :
    BgOutcome :=
  match storeFind store task_id with
  | none => BgOutcome.crashed
  | some t0 =>
      let t1 := { t0 with status := "processing" }
      let t2 := fileLoop sec reg mode languages nowIso files.length 0 files t1
      BgOutcome.finished
        { t2 with status := "completed", progress := 100,
                  files_processed := files.length, completed_at := some endTime }

/-! ## Request handlers (upload_files, get_progress; app.py lines 354-450) -/

/-- `allowed_extensions` (line 379). -/
def allowed_extensions : List String :=
  [".png", ".jpg", ".jpeg", ".bmp", ".tiff", ".gif", ".webp"]

/-- The MAX_CONTENT_LENGTH configured on the app (line 290): 16MB. -/
def max_content_length : Nat := 16 * 1024 * 1024

/-- `os.path.splitext(filename)[1]` for an uploaded (separator-free)
filename: the suffix from the last dot on, unless every character before
that dot is itself a dot (then there is no extension). -/
def extOf (s : String) : String :=
  let cs := s.toList
  let dots := (List.range cs.length).filter (fun i => cs.getD i '-' == '.')
  match dots.getLast? with
  | none => ""
  | some d =>
      if (List.range d).any (fun j => !(cs.getD j '.' == '.')) then
        String.mk (cs.drop d)
      else ""

/-- The per-file validation of the upload handler (lines 376-394): non-empty
filename, allow-listed lowercased extension, and size at most 16MB. -/
def validFile (f : RawFile) : Bool :=
  f.filename != "" &&
  allowed_extensions.contains (pyLower (extOf f.filename)) &&
  decide (f.size ≤ max_content_length)

/-- The background job the handler hands to `threading.Thread` (lines
414-419). -/
structure PendingJob where
  task_id : String
  files : List RawFile
  mode : String
  languages : List String

/-- The possible responses of the upload handler. -/
inductive UploadResp where
  | engine_unavailable
  | no_files_field
  | no_files
  | no_valid_files
  | created (task_id : String)
deriving DecidableEq

/-- `upload_files` (lines 354-428): sweep old tasks, check the engine and the
request, filter the valid files, create the task record and dispatch the
background job.  `ocrSome` is whether the global `ocr_engine` is not None;
`newId` the fresh uuid; `filesField` the value of `request.files` under
`files` (None when absent); `modeField`/`langsField` the form fields.
Returns the response, the new store, and the dispatched job if any.
There is no admission-control branch in the source. -/
def upload_files (ocrSome : Bool) (now : ℚ) (newId : String)
    (filesField : Option (List RawFile)) (modeField : Option String)
    (langsField : List String) (store : List (String × TaskRec)) :
    UploadResp × List (String × TaskRec) × Option PendingJob :=
  let store1 := cleanup_old_tasks now store
  if !ocrSome then (UploadResp.engine_unavailable, store1, none)
  else
    match filesField with
    | none => (UploadResp.no_files_field, store1, none)
    | some files =>
      let mode := modeField.getD "normal"
      let languages := if langsField.isEmpty then ["en"] else langsField
      if files.isEmpty then (UploadResp.no_files, store1, none)
      else
        let valid := files.filter validFile
        if valid.isEmpty then (UploadResp.no_valid_files, store1, none)
        else
          (UploadResp.created newId,
           (newId, new_task now valid.length) :: store1,
           some { task_id := newId, files := valid, mode := mode, languages := languages })

/-- The estimate written by the status query (lines 440-445):
`elapsed / files_processed * remaining`, rounded by Python `round(x, 1)`.
The Python value is a double; it is modelled here over the rationals
(ties-to-even rounding to one decimal place).  No claim inspects this
value: only the fact that the field is written matters. -/
def round1 (q : ℚ) : ℚ :=
  (rdiv (q * 10).num (((q * 10).den : ℤ)) : ℚ) / 10

/-- The mutation `get_progress` performs on the task record it returns
(lines 437-445): for a processing task with at least one file counted it
writes the derived `estimated_remaining` field into the record; otherwise
the record is untouched. -/
def get_progress_update (now : ℚ) (t : TaskRec) : TaskRec :=
  if t.status == "processing" && decide (0 < t.files_processed) then
    let elapsed := now - t.created_at
    let avg := elapsed / (t.files_processed : ℚ)
    let remaining : ℚ := (t.total_files : ℚ) - (t.files_processed : ℚ)
    { t with estimated_remaining := some (round1 (avg * remaining)) }
  else t

/-- `get_progress` (lines 430-450): look the task up (no sweep happens on
this path), apply the estimate mutation in place, return the record;
unknown id yields a 404 (`none`). -/
def get_progress_handler (now : ℚ) (store : List (String × TaskRec)) (id : String) :
    List (String × TaskRec) × Option TaskRec :=
  match storeFind store id with
  | none => (store, none)
  | some t =>
      let t2 := get_progress_update now t
      (storeSet store id t2, some t2)

/-- Number of non-terminal tasks in the store (the "active" count of the
admission-control claim; the source has no such ceiling). -/
def activeTasksCount (store : List (String × TaskRec)) : Nat :=
  (store.filter (fun p => p.2.status != "completed" && p.2.status != "error")).length

/-! ## Concrete fixtures for witnesses and counterexamples -/

/-- Registry with only the opencv fallback registered. -/
def regCv : Registry := ⟨false, false, false, true⟩

/-- Registry with easyocr and the opencv fallback registered. -/
def regEoCv : Registry := ⟨true, false, false, true⟩

/-- Registry with easyocr and paddleocr registered. -/
def regEoPd : Registry := ⟨true, true, false, false⟩

/-- Registry with nothing registered. -/
def regNone : Registry := ⟨false, false, false, false⟩

/-- Oracle: easyocr returns empty text, every other engine returns "HELLO". -/
def runHello : String → List String → ExtractResult := fun e _ =>
  if e == "easyocr" then ExtractResult.ok "" else ExtractResult.ok "HELLO"

/-- Oracle: easyocr returns empty text, every other engine returns fallback
text. -/
def runFb : String → List String → ExtractResult := fun e _ =>
  if e == "easyocr" then ExtractResult.ok "" else ExtractResult.ok "FALLBACK"

/-- Oracle: easyocr returns " A ", every other engine raises "b". -/
def runMix : String → List String → ExtractResult := fun e _ =>
  if e == "easyocr" then ExtractResult.ok " A " else ExtractResult.exn "b"

/-- Oracle: every engine raises "boom". -/
def runBoom : String → List String → ExtractResult := fun _ _ =>
  ExtractResult.exn "boom"

/-- A valid uploaded file whose processing succeeds (opencv-style text). -/
def fileGood : RawFile := ⟨"a.png", 100, FileFate.img runHello⟩

/-- A valid uploaded file whose processing raises (e.g. undecodable bytes). -/
def fileBad : RawFile := ⟨"b.png", 100, FileFate.exn "Could not decode image"⟩

/-- A hundred failing files, for exercising the progress accounting. -/
def files100 : List RawFile := List.replicate 100 fileBad

/-- An expired, completed task (created at time 0). -/
def taskOld : TaskRec :=
  { status := "completed", progress := 100, files_processed := 1, total_files := 1,
    results := [⟨"a.png", "HELLO", "iso"⟩], error := none, created_at := 0,
    completed_at := some 1, estimated_remaining := none }

/-- A task in mid-processing with one file counted. -/
def taskProc : TaskRec :=
  { status := "processing", progress := 50, files_processed := 1, total_files := 2,
    results := [⟨"a.png", "HELLO", "iso"⟩], error := none, created_at := 0,
    completed_at := none, estimated_remaining := none }

/-- A store of n concurrently processing (non-terminal) tasks. -/
def mkActiveStore (n : Nat) : List (String × TaskRec) :=
  (List.range n).map (fun i => (toString i, { new_task 0 1 with status := "processing" }))

/-! ## Helper lemmas -/

theorem str_length_pos {s : String} (h : s ≠ "") : 0 < s.length := by
  cases s with
  | mk data =>
    cases data with
    | nil => exact absurd rfl h
    | cons c cs => simp [String.length]

theorem str_ne_empty {s : String} (h : 0 < s.length) : s ≠ "" := by
  intro he
  rw [he] at h
  simp [String.length] at h

theorem length_append_str (a b : String) : (a ++ b).length = a.length + b.length := by
  cases a with
  | mk da =>
    cases b with
    | mk db => simp [String.length, String.append]

theorem joinSep_ne_empty (sep : String) :
    ∀ l : List String, l ≠ [] → (∀ x ∈ l, x ≠ "") → joinSep sep l ≠ ""
  | [], h, _ => absurd rfl h
  | [a], _, hx => by simpa [joinSep] using hx a (by simp)
  | a :: b :: rest, _, hx => by
      have ha : a ≠ "" := hx a (by simp)
      apply str_ne_empty
      have : joinSep sep (a :: b :: rest) = a ++ sep ++ joinSep sep (b :: rest) := rfl
      rw [this, length_append_str, length_append_str]
      have := str_length_pos ha
      omega

theorem loop_results_mem_ne_empty (run : String → List String → ExtractResult)
    (mode : String) (langs : List String) :
    ∀ l x, x ∈ (loopEngines run mode langs l).results → x ≠ ""
  | [], x, hx => by simp [loopEngines] at hx
  | e :: rest, x, hx => by
      rcases hre : run e langs with t | msg
      · rw [loopEngines, hre] at hx
        by_cases ht : (pyStrip t == "") = true
        · simp only [ht, if_true] at hx
          exact loop_results_mem_ne_empty run mode langs rest x hx
        · rw [Bool.not_eq_true] at ht
          simp only [ht, Bool.false_eq_true, if_false] at hx
          by_cases hm : (mode == "high_accuracy") = true
          · simp only [hm, if_true] at hx
            rcases List.mem_cons.mp hx with hx | hx
            · subst hx
              apply str_ne_empty
              rw [length_append_str, length_append_str, length_append_str]
              have : ("[" : String).length = 1 := by decide
              omega
            · exact loop_results_mem_ne_empty run mode langs rest x hx
          · rw [Bool.not_eq_true] at hm
            simp only [hm, Bool.false_eq_true, if_false, List.mem_singleton] at hx
            subst hx
            exact ne_of_beq_false ht
      · rw [loopEngines, hre] at hx
        exact loop_results_mem_ne_empty run mode langs rest x hx

theorem loop_errors_eq (run : String → List String → ExtractResult)
    (mode : String) (langs : List String) :
    ∀ l, (loopEngines run mode langs l).errors =
      ((loopEngines run mode langs l).invoked).filterMap (errLabel run langs)
  | [] => by simp [loopEngines]
  | e :: rest => by
      rcases hre : run e langs with t | msg
      · rw [loopEngines, hre]
        by_cases ht : (pyStrip t == "") = true
        · simp only [ht, if_true]
          simp [List.filterMap_cons, errLabel, hre, loop_errors_eq run mode langs rest]
        · rw [Bool.not_eq_true] at ht
          simp only [ht, Bool.false_eq_true, if_false]
          by_cases hm : (mode == "high_accuracy") = true
          · simp only [hm, if_true]
            simp [List.filterMap_cons, errLabel, hre, loop_errors_eq run mode langs rest]
          · rw [Bool.not_eq_true] at hm
            simp only [hm, Bool.false_eq_true, if_false]
            simp [List.filterMap_cons, errLabel, hre]
      · rw [loopEngines, hre]
        simp [List.filterMap_cons, errLabel, hre, loop_errors_eq run mode langs rest]

theorem loop_high_invoked (run : String → List String → ExtractResult)
    (langs : List String) :
    ∀ l, (loopEngines run "high_accuracy" langs l).invoked = l
  | [] => by simp [loopEngines]
  | e :: rest => by
      rcases hre : run e langs with t | msg
      · rw [loopEngines, hre]
        by_cases ht : (pyStrip t == "") = true
        · simp only [ht, if_true]
          simp [loop_high_invoked run langs rest]
        · rw [Bool.not_eq_true] at ht
          simp only [ht, Bool.false_eq_true, if_false]
          simp [loop_high_invoked run langs rest]
      · rw [loopEngines, hre]
        simp [loop_high_invoked run langs rest]

theorem loop_high_results (run : String → List String → ExtractResult)
    (langs : List String) :
    ∀ l, (loopEngines run "high_accuracy" langs l).results =
      l.filterMap (okLabel run langs)
  | [] => by simp [loopEngines]
  | e :: rest => by
      rcases hre : run e langs with t | msg
      · rw [loopEngines, hre]
        by_cases ht : (pyStrip t == "") = true
        · simp only [ht, if_true]
          simp [List.filterMap_cons, okLabel, hre, ht, loop_high_results run langs rest]
        · rw [Bool.not_eq_true] at ht
          simp only [ht, Bool.false_eq_true, if_false]
          simp [List.filterMap_cons, okLabel, hre, ht, loop_high_results run langs rest]
      · rw [loopEngines, hre]
        simp [List.filterMap_cons, okLabel, hre, loop_high_results run langs rest]

theorem loop_break_normal (run : String → List String → ExtractResult)
    (langs : List String) (e : String) (t : String) (l2 : List String)
    (hre : run e langs = ExtractResult.ok t) (ht : (pyStrip t == "") = false) :
    ∀ l1, (∀ x ∈ l1, failsOrEmpty run langs x = true) →
      loopEngines run "normal" langs (l1 ++ e :: l2) =
        ⟨[pyStrip t], l1.filterMap (errLabel run langs), l1 ++ [e]⟩
  | [], _ => by
      rw [List.nil_append, loopEngines, hre]
      simp only [ht, Bool.false_eq_true, if_false]
      simp
  | x :: l1, hall => by
      have hx := hall x (by simp)
      have ih := loop_break_normal run langs e t l2 hre ht l1
        (fun y hy => hall y (by simp [hy]))
      rcases hrx : run x langs with s | msg
      · rw [failsOrEmpty, hrx] at hx
        simp only at hx
        rw [List.cons_append, loopEngines, hrx]
        simp only [hx, if_true, ih]
        simp [List.filterMap_cons, errLabel, hrx]
      · rw [List.cons_append, loopEngines, hrx]
        simp only [ih]
        simp [List.filterMap_cons, errLabel, hrx]

theorem tryList_mode_eq (r : Registry) {mode : String}
    (h : (mode == "high_accuracy") = false) :
    enginesToTry r mode = enginesToTry r "normal" := by
  rw [enginesToTry, enginesToTry, h]
  rfl

theorem loop_mode_eq (run : String → List String → ExtractResult)
    (langs : List String) {mode : String} (h : (mode == "high_accuracy") = false) :
    ∀ l, loopEngines run mode langs l = loopEngines run "normal" langs l
  | [] => by simp [loopEngines]
  | e :: rest => by
      rcases hre : run e langs with t | msg
      · rw [loopEngines, loopEngines, hre]
        by_cases ht : (pyStrip t == "") = true
        · simp only [ht, if_true, loop_mode_eq run langs h rest]
        · rw [Bool.not_eq_true] at ht
          simp only [ht, Bool.false_eq_true, if_false, h]
          rfl
      · rw [loopEngines, loopEngines, hre]
        simp only [loop_mode_eq run langs h rest]

theorem extract_mode_eq (r : Registry) (run : String → List String → ExtractResult)
    (langs : List String) {mode : String} (h : (mode == "high_accuracy") = false) :
    extract_text r run mode langs = extract_text r run "normal" langs := by
  rw [extract_text, extract_text, tryList_mode_eq r h,
    loop_mode_eq run langs h (enginesToTry r "normal")]

theorem entriesFrom_length (sec : String → String) (reg : Registry) (mode : String)
    (langs : List String) (iso : String) :
    ∀ (fs : List RawFile) (j : Nat),
      (fileEntriesFrom sec reg mode langs iso j fs).length = fs.length
  | [], _ => rfl
  | _ :: rest, j => by
      simp [fileEntriesFrom, entriesFrom_length sec reg mode langs iso rest (j + 1)]

theorem entriesFrom_get (sec : String → String) (reg : Registry) (mode : String)
    (langs : List String) (iso : String) :
    ∀ (fs : List RawFile) (j i : Nat),
      (fileEntriesFrom sec reg mode langs iso j fs).get? i =
        (fs.get? i).map (fun f => fileEntry sec reg mode langs iso (j + i) f)
  | [], _, _ => by simp [fileEntriesFrom]
  | f :: rest, j, 0 => by simp [fileEntriesFrom]
  | f :: rest, j, i + 1 => by
      rw [fileEntriesFrom, List.get?_cons_succ, List.get?_cons_succ,
        entriesFrom_get sec reg mode langs iso rest (j + 1) i]
      have : j + 1 + i = j + (i + 1) := by omega
      rw [this]

theorem fileLoop_results (sec : String → String) (reg : Registry) (mode : String)
    (langs : List String) (iso : String) (n : Nat) :
    ∀ (fs : List RawFile) (i : Nat) (t : TaskRec),
      (fileLoop sec reg mode langs iso n i fs t).results =
        t.results ++ fileEntriesFrom sec reg mode langs iso i fs
  | [], _, t => by simp [fileLoop, fileEntriesFrom]
  | f :: rest, i, t => by
      rw [fileLoop, fileEntriesFrom,
        fileLoop_results sec reg mode langs iso n rest (i + 1) _]
      simp

theorem fileLoop_total_files (sec : String → String) (reg : Registry) (mode : String)
    (langs : List String) (iso : String) (n : Nat) :
    ∀ (fs : List RawFile) (i : Nat) (t : TaskRec),
      (fileLoop sec reg mode langs iso n i fs t).total_files = t.total_files
  | [], _, _ => rfl
  | f :: rest, i, t => by
      rw [fileLoop, fileLoop_total_files sec reg mode langs iso n rest (i + 1) _]

theorem fileLoop_error (sec : String → String) (reg : Registry) (mode : String)
    (langs : List String) (iso : String) (n : Nat) :
    ∀ (fs : List RawFile) (i : Nat) (t : TaskRec),
      (fileLoop sec reg mode langs iso n i fs t).error = t.error
  | [], _, _ => rfl
  | f :: rest, i, t => by
      rw [fileLoop, fileLoop_error sec reg mode langs iso n rest (i + 1) _]

theorem fileLoop_created_at (sec : String → String) (reg : Registry) (mode : String)
    (langs : List String) (iso : String) (n : Nat) :
    ∀ (fs : List RawFile) (i : Nat) (t : TaskRec),
      (fileLoop sec reg mode langs iso n i fs t).created_at = t.created_at
  | [], _, _ => rfl
  | f :: rest, i, t => by
      rw [fileLoop, fileLoop_created_at sec reg mode langs iso n rest (i + 1) _]

theorem fileLoop_status (sec : String → String) (reg : Registry) (mode : String)
    (langs : List String) (iso : String) (n : Nat) :
    ∀ (fs : List RawFile) (i : Nat) (t : TaskRec),
      (fileLoop sec reg mode langs iso n i fs t).status = t.status
  | [], _, _ => rfl
  | f :: rest, i, t => by
      rw [fileLoop, fileLoop_status sec reg mode langs iso n rest (i + 1) _]

theorem runnerTrace_last (sec : String → String) (reg : Registry) (mode : String)
    (langs : List String) (iso : String) (n : Nat) :
    ∀ (fs : List RawFile) (i : Nat) (t : TaskRec),
      (runnerTrace sec reg mode langs iso n i fs t).getLastD t =
        fileLoop sec reg mode langs iso n i fs t
  | [], _, _ => rfl
  | f :: rest, i, t => by
      rw [runnerTrace, fileLoop, List.getLastD_cons, List.getLastD_cons,
        runnerTrace_last sec reg mode langs iso n rest (i + 1) _]

theorem runnerTrace_get (sec : String → String) (reg : Registry) (mode : String)
    (langs : List String) (iso : String) (n : Nat) :
    ∀ (fs : List RawFile) (j : Nat) (t : TaskRec) (i : Nat), i < fs.length →
      ∃ u f, fs.get? i = some f ∧
        (runnerTrace sec reg mode langs iso n j fs t).get? (2 * i) = some u ∧
        u.progress = pyProgress (j + i) n ∧
        u.files_processed = j + i ∧
        u.results = t.results ++ fileEntriesFrom sec reg mode langs iso j (fs.take i) ∧
        u.status = t.status ∧
        (runnerTrace sec reg mode langs iso n j fs t).get? (2 * i + 1) =
          some { u with
                 results := u.results ++ [fileEntry sec reg mode langs iso (j + i) f] } := by
  intro fs
  induction fs with
  | nil => intro j t i h; simp at h
  | cons f rest ih =>
    intro j t i h
    cases i with
    | zero =>
      refine ⟨{ t with progress := pyProgress j n, files_processed := j }, f, rfl, ?_⟩
      simp [runnerTrace, fileEntriesFrom]
    | succ i =>
      have hi : i < rest.length := by simpa using h
      obtain ⟨u, g, hg, hget, hprog, hfp, hres, hstat, hget1⟩ :=
        ih (j + 1)
          { t with progress := pyProgress j n, files_processed := j,
                   results := t.results ++ [fileEntry sec reg mode langs iso j f] } i hi
      refine ⟨u, g, by simpa using hg, ?_, ?_, ?_, ?_, ?_, ?_⟩
      · have h2 : 2 * (i + 1) = 2 * i + 1 + 1 := by omega
        rw [runnerTrace, h2, List.get?_cons_succ, List.get?_cons_succ]
        exact hget
      · rw [hprog]
        have : j + 1 + i = j + (i + 1) := by omega
        rw [this]
      · rw [hfp]; omega
      · rw [hres]
        simp [fileEntriesFrom, List.append_assoc]
      · rw [hstat]
      · have h2 : 2 * (i + 1) + 1 = 2 * i + 1 + 1 + 1 := by omega
        rw [runnerTrace, h2, List.get?_cons_succ, List.get?_cons_succ]
        have h3 : j + 1 + i = j + (i + 1) := by omega
        rw [← h3]
        exact hget1

theorem gpu_fields (now : ℚ) (t : TaskRec) :
    (get_progress_update now t).status = t.status ∧
    (get_progress_update now t).progress = t.progress ∧
    (get_progress_update now t).files_processed = t.files_processed ∧
    (get_progress_update now t).total_files = t.total_files ∧
    (get_progress_update now t).results = t.results ∧
    (get_progress_update now t).error = t.error ∧
    (get_progress_update now t).created_at = t.created_at ∧
    (get_progress_update now t).completed_at = t.completed_at := by
  rw [get_progress_update]
  split <;> simp

theorem cleanup_mem (now : ℚ) (store : List (String × TaskRec)) (p : String × TaskRec) :
    p ∈ cleanup_old_tasks now store ↔
      p ∈ store ∧ ¬ now - p.2.created_at > task_cleanup_threshold := by
  rw [cleanup_old_tasks, List.mem_filter]
  simp

theorem storeSet_keys (store : List (String × TaskRec)) (id : String) (t : TaskRec) :
    (storeSet store id t).map Prod.fst = store.map Prod.fst := by
  induction store with
  | nil => rfl
  | cons p rest ih =>
    rw [storeSet, List.map_cons, List.map_cons]
    rw [storeSet] at ih
    by_cases hb : (p.1 == id) = true
    · rw [if_pos hb, ih]
      have : p.1 = id := eq_of_beq hb
      simp [this]
    · rw [Bool.not_eq_true] at hb
      rw [if_neg (by simp [hb]), ih]
      rfl

theorem upload_resp_valid (now : ℚ) (newId : String) (files : List RawFile)
    (modeF : Option String) (langsF : List String) (store : List (String × TaskRec))
    (h : files.filter validFile ≠ []) :
    (upload_files true now newId (some files) modeF langsF store).1 =
      UploadResp.created newId ∧
    (upload_files true now newId (some files) modeF langsF store).2.1 =
      (newId, new_task now (files.filter validFile).length) ::
        cleanup_old_tasks now store := by
  have hne : files ≠ [] := by
    intro he
    rw [he] at h
    exact h rfl
  have h1 : files.isEmpty = false := by
    cases files with
    | nil => exact absurd rfl hne
    | cons a l => rfl
  have h2 : (files.filter validFile).isEmpty = false := by
    cases hf : files.filter validFile with
    | nil => exact absurd hf h
    | cons a l => rfl
  constructor <;> simp [upload_files, h1, h2]

theorem upload_store_sub (ocrSome : Bool) (now : ℚ) (newId : String)
    (ff : Option (List RawFile)) (mf : Option String) (lf : List String)
    (store : List (String × TaskRec)) (p : String × TaskRec)
    (hp : p ∈ (upload_files ocrSome now newId ff mf lf store).2.1) :
    p.1 = newId ∨ p ∈ cleanup_old_tasks now store := by
  rw [upload_files.eq_def] at hp
  dsimp only at hp
  split at hp
  · exact Or.inr hp
  · split at hp
    · exact Or.inr hp
    · split at hp
      · exact Or.inr hp
      · split at hp
        · exact Or.inr hp
        · rcases List.mem_cons.mp hp with h | h
          · left
            rw [h]
          · exact Or.inr h

theorem active_mkStore (n : Nat) : activeTasksCount (mkActiveStore n) = n := by
  rw [activeTasksCount, mkActiveStore]
  rw [List.filter_eq_self.mpr]
  · simp
  · intro a ha
    obtain ⟨i, hi, rfl⟩ := List.mem_map.mp ha
    rfl

theorem opencv_in_normal (r : Registry) :
    "opencv" ∈ enginesToTry r "normal" ↔
      (r.opencv = true ∧ r.easyocr = false ∧ r.paddleocr = false ∧ r.tesseract = false) := by
  rcases r with ⟨e1, p1, t1, o1⟩
  cases e1 <;> cases p1 <;> cases t1 <;> cases o1 <;> decide

/-! ## Claims -/

/-- C2: for every registry, backend behavior, mode and language list, the
extraction operation is total: when no engine is registered it returns the
sentinel unavailable message; its result is never the empty string; and
when no backend produced non-empty trimmed text it returns the synthesized
diagnostic, which joins one entry per backend that raised (engine name plus
exception message, in invocation order) or says "No text detected" when
every invoked backend succeeded with empty output. -/
theorem c2_extraction_total_diagnostic (r : Registry)
    (run : String → List String → ExtractResult) (mode : String) (langs : List String) :
    (r.is_ready = false → extract_text r run mode langs = sentinel_unavailable) ∧
    extract_text r run mode langs ≠ "" ∧
    (r.is_ready = true →
      (loopEngines run mode langs (enginesToTry r mode)).results = [] →
      extract_text r run mode langs =
        "Text extraction failed. Errors: " ++
          (if (loopEngines run mode langs (enginesToTry r mode)).errors.isEmpty
           then "No text detected"
           else joinSep "; " (loopEngines run mode langs (enginesToTry r mode)).errors) ∧
      (loopEngines run mode langs (enginesToTry r mode)).errors =
        ((loopEngines run mode langs (enginesToTry r mode)).invoked).filterMap
          (errLabel run langs)) := by
  refine ⟨?_, ?_, ?_⟩
  · intro h
    simp [extract_text, h]
  · by_cases hr : r.is_ready = true
    · rw [extract_text]
      simp only [hr, Bool.not_true, Bool.false_eq_true, if_false]
      by_cases ho : (loopEngines run mode langs (enginesToTry r mode)).results.isEmpty = true
      · simp only [ho, Bool.not_true, Bool.false_eq_true, if_false]
        apply str_ne_empty
        rw [length_append_str]
        have : ("Text extraction failed. Errors: " : String).length = 32 := by decide
        omega
      · rw [Bool.not_eq_true] at ho
        simp only [ho, Bool.not_false, if_true]
        apply joinSep_ne_empty
        · intro he
          rw [he] at ho
          simp at ho
        · intro x hx
          exact loop_results_mem_ne_empty run mode langs _ x hx
    · rw [Bool.not_eq_true] at hr
      rw [extract_text]
      simp only [hr, Bool.not_false, if_true]
      decide
  · intro hr hres
    constructor
    · rw [extract_text]
      simp only [hr, Bool.not_true, Bool.false_eq_true, if_false, hres]
      cases he : (loopEngines run mode langs (enginesToTry r mode)).errors with
      | nil => simp [hres, he]
      | cons a l => simp [hres, he]
    · exact loop_errors_eq run mode langs _

/-- C2 witness: with nothing registered the sentinel is returned; with only
opencv registered and a backend that raises "boom", the result is non-empty
and is the synthesized diagnostic naming the failing backend. -/
theorem c2_extraction_total_diagnostic_witness :
    extract_text regNone runBoom "normal" ["en"] = sentinel_unavailable ∧
    extract_text regCv runBoom "normal" ["en"] ≠ "" ∧
    extract_text regCv runBoom "normal" ["en"] =
      "Text extraction failed. Errors: opencv failed: boom" := by
  refine ⟨?_, ?_, ?_⟩
  · exact (c2_extraction_total_diagnostic regNone runBoom "normal" ["en"]).1 (by decide)
  · exact (c2_extraction_total_diagnostic regCv runBoom "normal" ["en"]).2.1
  · exact (((c2_extraction_total_diagnostic regCv runBoom "normal" ["en"]).2.2
      (by decide) (by decide)).1).trans (by decide)

/-- C3 counterexample: with easyocr and the opencv fallback both registered
and easyocr returning empty text, normal mode does not try the registered
fallback at all — the try list is just ["easyocr"], opencv is never invoked,
and the result is the failure diagnostic instead of the fallback text.  The
claim (fixed priority order over the registered backends with the fallback
last, first non-empty output returned) is therefore false at this input. -/
theorem c3_normal_mode_fallback_cex :
    regEoCv.keys.contains "opencv" = true ∧
    enginesToTry regEoCv "normal" = ["easyocr"] ∧
    ¬ "opencv" ∈ enginesToTry regEoCv "normal" ∧
    (loopEngines runFb "normal" ["en"] (enginesToTry regEoCv "normal")).invoked =
      ["easyocr"] ∧
    extract_text regEoCv runFb "normal" ["en"] =
      "Text extraction failed. Errors: No text detected" := by
  refine ⟨by decide, by decide, by decide, by decide, by decide⟩

/-- C3 (amended): in normal mode the loop walks the selected list — the
registered advanced backends in the fixed order easyocr, paddleocr,
tesseract, with the opencv fallback selected only when no advanced backend
is registered — and stops at the first backend whose trimmed output is
non-empty: exactly the failing prefix plus that backend are invoked, the
results list is the single trimmed text, which is returned unaggregated. -/
theorem c3_normal_mode_first_success (r : Registry)
    (run : String → List String → ExtractResult) (langs : List String)
    (l1 : List String) (e : String) (l2 : List String) (t : String)
    (hsel : enginesToTry r "normal" = l1 ++ e :: l2)
    (hall : ∀ x ∈ l1, failsOrEmpty run langs x = true)
    (hre : run e langs = ExtractResult.ok t)
    (ht : (pyStrip t == "") = false) :
    (loopEngines run "normal" langs (enginesToTry r "normal")).invoked = l1 ++ [e] ∧
    (loopEngines run "normal" langs (enginesToTry r "normal")).results = [pyStrip t] ∧
    extract_text r run "normal" langs = pyStrip t ∧
    ("opencv" ∈ enginesToTry r "normal" ↔
      (r.opencv = true ∧ r.easyocr = false ∧ r.paddleocr = false ∧
        r.tesseract = false)) := by
  have hloop := loop_break_normal run langs e t l2 hre ht l1 hall
  have hready : r.is_ready = true := by
    by_cases hk : r.keys.isEmpty = true
    · have hknil : r.keys = [] := by
        cases hkk : r.keys with
        | nil => rfl
        | cons a l => rw [hkk] at hk; simp at hk
      have : enginesToTry r "normal" = [] := by
        simp [enginesToTry, hknil]
      rw [hsel] at this
      simp at this
    · rw [Bool.not_eq_true] at hk
      simp [Registry.is_ready, hk]
  refine ⟨?_, ?_, ?_, opencv_in_normal r⟩
  · rw [hsel, hloop]
  · rw [hsel, hloop]
  · rw [extract_text]
    simp only [hready, Bool.not_true, Bool.false_eq_true, if_false, hsel, hloop]
    simp [joinSep]

/-- C3 witness: the selection-policy scenario of the spec — two available
backends where the first returns empty and the second returns "HELLO": both
are invoked in order and "HELLO" is returned. -/
theorem c3_normal_mode_first_success_witness :
    (loopEngines runHello "normal" ["en"] (enginesToTry regEoPd "normal")).invoked =
      ["easyocr", "paddleocr"] ∧
    extract_text regEoPd runHello "normal" ["en"] = "HELLO" := by
  have h := c3_normal_mode_first_success regEoPd runHello ["en"] ["easyocr"]
    "paddleocr" [] "HELLO" (by decide) (by decide) (by decide) (by decide)
  exact ⟨by rw [h.1]; decide, h.2.2.1⟩

/-- C4: in high_accuracy mode the try list is every registered backend in
registration-priority order, every one of them is invoked, the collected
results are exactly the non-empty trimmed outputs labeled with the engine
name in that order, and when at least one is non-empty the returned string
is their concatenation (joined with blank lines). -/
theorem c4_high_accuracy_aggregation (r : Registry)
    (run : String → List String → ExtractResult) (langs : List String) :
    enginesToTry r "high_accuracy" = r.keys ∧
    (loopEngines run "high_accuracy" langs
        (enginesToTry r "high_accuracy")).invoked = r.keys ∧
    (loopEngines run "high_accuracy" langs
        (enginesToTry r "high_accuracy")).results =
      r.keys.filterMap (okLabel run langs) ∧
    (r.keys.filterMap (okLabel run langs) ≠ [] →
      extract_text r run "high_accuracy" langs =
        joinSep "\n\n" (r.keys.filterMap (okLabel run langs))) := by
  have he : enginesToTry r "high_accuracy" = r.keys := by
    simp [enginesToTry]
  refine ⟨he, ?_, ?_, ?_⟩
  · rw [he, loop_high_invoked]
  · rw [he, loop_high_results]
  · intro hne
    have hkne : r.keys ≠ [] := by
      intro hk
      apply hne
      rw [hk]
      rfl
    have hready : r.is_ready = true := by
      cases hkk : r.keys with
      | nil => exact absurd hkk hkne
      | cons a l => simp [Registry.is_ready, hkk]
    have hres := loop_high_results run langs r.keys
    rcases hf : r.keys.filterMap (okLabel run langs) with _ | ⟨a, l⟩
    · exact absurd hf hne
    · rw [extract_text]
      simp only [hready, Bool.not_true, Bool.false_eq_true, if_false, he, hres, hf]
      simp

/-- C4 witness: easyocr and opencv registered, easyocr returns " A ",
opencv raises: every registered backend is invoked and the result is the
single labeled section of the one non-empty output. -/
theorem c4_high_accuracy_aggregation_witness :
    (loopEngines runMix "high_accuracy" ["en"]
        (enginesToTry regEoCv "high_accuracy")).invoked = ["easyocr", "opencv"] ∧
    extract_text regEoCv runMix "high_accuracy" ["en"] =
      joinSep "\n\n" (regEoCv.keys.filterMap (okLabel runMix ["en"])) := by
  have h := c4_high_accuracy_aggregation regEoCv runMix ["en"]
  exact ⟨by rw [h.2.1]; decide, h.2.2.2 (by decide)⟩

/-- C10: for every mode string other than high_accuracy (e.g. "fast" or the
empty string), extraction behaves exactly as in normal mode — the same try
list and the same first-non-empty stopping rule — and the submission
handler neither validates nor rejects the mode: its response and resulting
store are independent of the mode field, which is passed through verbatim
(defaulting to "normal" when absent) to the background job. -/
theorem c10_mode_fallthrough (mode : String) (h : mode ≠ "high_accuracy") :
    (∀ (r : Registry) (run : String → List String → ExtractResult)
       (langs : List String),
      extract_text r run mode langs = extract_text r run "normal" langs) ∧
    (∀ (ocrSome : Bool) (now : ℚ) (newId : String) (ff : Option (List RawFile))
       (lf : List String) (store : List (String × TaskRec)),
      (upload_files ocrSome now newId ff (some mode) lf store).1 =
        (upload_files ocrSome now newId ff (some "normal") lf store).1 ∧
      (upload_files ocrSome now newId ff (some mode) lf store).2.1 =
        (upload_files ocrSome now newId ff (some "normal") lf store).2.1 ∧
      (∀ j, (upload_files ocrSome now newId ff (some mode) lf store).2.2 = some j →
        j.mode = mode)) := by
  have hb : (mode == "high_accuracy") = false := by
    cases hbb : mode == "high_accuracy"
    · rfl
    · exact absurd (eq_of_beq hbb) h
  constructor
  · intro r run langs
    exact extract_mode_eq r run langs hb
  · intro ocrSome now newId ff lf store
    cases ocrSome with
    | false => refine ⟨rfl, rfl, ?_⟩; intro j hj; simp [upload_files] at hj
    | true =>
      cases ff with
      | none => refine ⟨rfl, rfl, ?_⟩; intro j hj; simp [upload_files] at hj
      | some files =>
        by_cases h1 : files.isEmpty = true
        · refine ⟨?_, ?_, ?_⟩ <;> simp [upload_files, h1]
        · rw [Bool.not_eq_true] at h1
          by_cases h2 : (files.filter validFile).isEmpty = true
          · refine ⟨?_, ?_, ?_⟩ <;> simp [upload_files, h1, h2]
          · rw [Bool.not_eq_true] at h2
            refine ⟨?_, ?_, ?_⟩ <;> simp [upload_files, h1, h2]

/-- C10 witness: the unrecognized mode "fast" yields the same extraction
result as normal mode. -/
theorem c10_mode_fallthrough_witness :
    "fast" ≠ "high_accuracy" ∧
    extract_text regEoPd runHello "fast" ["en"] =
      extract_text regEoPd runHello "normal" ["en"] := by
  exact ⟨by decide,
    (c10_mode_fallthrough "fast" (by decide)).1 regEoPd runHello ["en"]⟩

/-- C1: a background run whose initial task lookup succeeds always finishes
with status completed, progress 100 and files_processed = N for its N input
files, and its results list is exactly one entry per input file in input
order — a file whose processing raised contributes the textual error
placeholder (never an omission) and does not disturb the entries of the
other files. -/
theorem c1_background_completion (sec : String → String) (reg : Registry)
    (mode : String) (langs : List String) (nowIso : String) (endT : ℚ)
    (store : List (String × TaskRec)) (task_id : String) (files : List RawFile)
    (t0 : TaskRec) (hfind : storeFind store task_id = some t0)
    (hres : t0.results = []) :
    process_images_background sec reg mode langs nowIso endT store task_id files =
      BgOutcome.finished
        (bgTask (process_images_background sec reg mode langs nowIso endT store
          task_id files) (new_task 0 0)) ∧
    (bgTask (process_images_background sec reg mode langs nowIso endT store
        task_id files) (new_task 0 0)).status = "completed" ∧
    (bgTask (process_images_background sec reg mode langs nowIso endT store
        task_id files) (new_task 0 0)).progress = 100 ∧
    (bgTask (process_images_background sec reg mode langs nowIso endT store
        task_id files) (new_task 0 0)).files_processed = files.length ∧
    (bgTask (process_images_background sec reg mode langs nowIso endT store
        task_id files) (new_task 0 0)).results =
      fileEntriesFrom sec reg mode langs nowIso 0 files ∧
    (bgTask (process_images_background sec reg mode langs nowIso endT store
        task_id files) (new_task 0 0)).results.length = files.length ∧
    (∀ i f, files.get? i = some f →
      (bgTask (process_images_background sec reg mode langs nowIso endT store
          task_id files) (new_task 0 0)).results.get? i =
        some (fileEntry sec reg mode langs nowIso i f)) ∧
    (∀ i f msg, files.get? i = some f → f.fate = FileFate.exn msg →
      (fileEntry sec reg mode langs nowIso i f).text =
        "Error processing file: " ++ msg) := by
  have hbg : process_images_background sec reg mode langs nowIso endT store
      task_id files =
      BgOutcome.finished
        { fileLoop sec reg mode langs nowIso files.length 0 files
            { t0 with status := "processing" } with
          status := "completed", progress := 100,
          files_processed := files.length, completed_at := some endT } := by
    rw [process_images_background, hfind]
  have hloopres :
      (fileLoop sec reg mode langs nowIso files.length 0 files
        { t0 with status := "processing" }).results =
        fileEntriesFrom sec reg mode langs nowIso 0 files := by
    rw [fileLoop_results]
    simp [hres]
  rw [hbg]
  refine ⟨rfl, rfl, rfl, rfl, ?_, ?_, ?_, ?_⟩
  · exact hloopres
  · rw [bgTask]
    show (fileLoop sec reg mode langs nowIso files.length 0 files
      { t0 with status := "processing" }).results.length = files.length
    rw [hloopres, entriesFrom_length]
  · intro i f hf
    rw [bgTask]
    show (fileLoop sec reg mode langs nowIso files.length 0 files
      { t0 with status := "processing" }).results.get? i =
      some (fileEntry sec reg mode langs nowIso i f)
    rw [hloopres, entriesFrom_get, hf]
    simp
  · intro i f msg hf hfate
    rw [fileEntry, hfate]

/-- C1 witness: two files of which the second raises while decoding — the
run completes with both entries present, the second being the error
placeholder. -/
theorem c1_background_completion_witness :
    (bgTask (process_images_background (fun s => s) regCv "normal" ["en"] "iso" 5
        [("t", new_task 0 2)] "t" [fileGood, fileBad]) (new_task 0 0)).status =
      "completed" ∧
    (bgTask (process_images_background (fun s => s) regCv "normal" ["en"] "iso" 5
        [("t", new_task 0 2)] "t" [fileGood, fileBad]) (new_task 0 0)).progress =
      100 ∧
    (bgTask (process_images_background (fun s => s) regCv "normal" ["en"] "iso" 5
        [("t", new_task 0 2)] "t" [fileGood, fileBad])
        (new_task 0 0)).files_processed = 2 ∧
    (bgTask (process_images_background (fun s => s) regCv "normal" ["en"] "iso" 5
        [("t", new_task 0 2)] "t" [fileGood, fileBad])
        (new_task 0 0)).results.length = 2 ∧
    (fileEntry (fun s => s) regCv "normal" ["en"] "iso" 1 fileBad).text =
      "Error processing file: Could not decode image" := by
  have h := c1_background_completion (fun s => s) regCv "normal" ["en"] "iso" 5
    [("t", new_task 0 2)] "t" [fileGood, fileBad] (new_task 0 2) rfl rfl
  exact ⟨h.2.1, h.2.2.1, h.2.2.2.1, h.2.2.2.2.2.1,
    h.2.2.2.2.2.2.2 1 fileBad "Could not decode image" rfl rfl⟩

/-- C5 counterexample: with 100 files, the state right before file 29
(0-based) is processed has progress 28, not floor(100 * 29 / 100) = 29: the
source computes `int((i / len(files)) * 100)` in double precision and
0.29 * 100 rounds below 29.  The claimed floor formula is false at this
input. -/
theorem c5_progress_formula_cex :
    ((runnerTrace (fun s => s) regCv "normal" ["en"] "iso" 100 0 files100
        { new_task 0 100 with status := "processing" }).get? 58).map
      (fun u => (u.progress, u.files_processed)) = some (28, 29) ∧
    (100 * 29) / 100 = 29 ∧
    (28 : Nat) ≠ 29 := by
  refine ⟨by decide, by decide, by decide⟩

/-- C5 (amended): before file i (0-based) of n is processed, the runner sets
files_processed = i and progress to the double-precision value of
`int((i / n) * 100)` (which is floor(100 i / n) except where the float
product falls just below an integer, e.g. i = 29, n = 100 gives 28); both
fields are updated before the file is read, preprocessed or extracted — at
that trace point the result entry of file i has not yet been appended. -/
theorem c5_progress_before_processing (sec : String → String) (reg : Registry)
    (mode : String) (langs : List String) (nowIso : String) (files : List RawFile)
    (t0 : TaskRec) (i : Nat) (h : i < files.length) :
    ∃ u f, files.get? i = some f ∧
      (runnerTrace sec reg mode langs nowIso files.length 0 files
          { t0 with status := "processing" }).get? (2 * i) = some u ∧
      u.progress = pyProgress i files.length ∧
      u.files_processed = i ∧
      u.results = t0.results ++
        fileEntriesFrom sec reg mode langs nowIso 0 (files.take i) ∧
      (runnerTrace sec reg mode langs nowIso files.length 0 files
          { t0 with status := "processing" }).get? (2 * i + 1) =
        some { u with results := u.results ++
          [fileEntry sec reg mode langs nowIso i f] } := by
  obtain ⟨u, f, hf, hget, hprog, hfp, hres, hstat, hget1⟩ :=
    runnerTrace_get sec reg mode langs nowIso files.length files 0
      { t0 with status := "processing" } i h
  exact ⟨u, f, hf, hget, by simpa using hprog, by simpa using hfp,
    by simpa using hres, by simpa using hget1⟩

/-- C5 witness: two files, i = 1: at trace position 2 the counters are set
(progress 50, files_processed 1) and only one result entry exists yet. -/
theorem c5_progress_before_processing_witness :
    ((runnerTrace (fun s => s) regCv "normal" ["en"] "iso" 2 0 [fileGood, fileBad]
        { new_task 0 2 with status := "processing" }).get? 2).map
      (fun u => (u.progress, u.files_processed, u.results.length)) =
      some (50, 1, 1) := by
  obtain ⟨u, f, hf, hget, hprog, hfp, hres, hget1⟩ :=
    c5_progress_before_processing (fun s => s) regCv "normal" ["en"] "iso"
      [fileGood, fileBad] (new_task 0 2) 1 (by decide)
  have hget2 : (runnerTrace (fun s => s) regCv "normal" ["en"] "iso" 2 0
      [fileGood, fileBad]
      { new_task 0 2 with status := "processing" }).get? 2 = some u := hget
  rw [hget2]
  have hlen : u.results.length = 1 := by
    rw [hres]
    decide
  show some (u.progress, u.files_processed, u.results.length) = some (50, 1, 1)
  rw [hprog, hfp, hlen]
  decide

/-- C6 (code bug): when the background runner starts for a task id that is
absent from the store, the lookup `processing_tasks[task_id]` raises
KeyError and the except handler then dereferences the never-bound local
`task`, raising UnboundLocalError: the thread dies and no record is
transitioned to status error — contradicting the claimed whole-task abort
behavior for exactly the example the claim gives. -/
theorem c6_missing_task_crash :
    process_images_background (fun s => s) regCv "normal" ["en"] "iso" 0 []
      "missing" [fileBad] = BgOutcome.crashed := rfl

/-- C7 counterexample: the status query does write a field of an existing
task: polling a processing task with one file counted stores the derived
estimated_remaining value into the record, so the store after the query
differs from the store before — refuting the claim that no operation other
than the own background unit of the task writes any field. -/
theorem c7_status_query_writes_cex :
    (get_progress_handler 10 [("b", taskProc)] "b").1 ≠ [("b", taskProc)] ∧
    ((get_progress_handler 10 [("b", taskProc)] "b").2).map
      (fun t => t.estimated_remaining.isSome) = some true := by
  have hcond : (taskProc.status == "processing" &&
      decide (0 < taskProc.files_processed)) = true := by decide
  have hupd : (get_progress_update 10 taskProc).estimated_remaining ≠ none := by
    rw [get_progress_update, if_pos hcond]
    simp
  have hh1 : (get_progress_handler 10 [("b", taskProc)] "b").1 =
      [("b", get_progress_update 10 taskProc)] := rfl
  have hh2 : (get_progress_handler 10 [("b", taskProc)] "b").2 =
      some (get_progress_update 10 taskProc) := rfl
  constructor
  · rw [hh1]
    intro heq
    have h2 : get_progress_update 10 taskProc = taskProc := by
      have := congrArg (fun l => (l.headD ("x", taskProc)).2) heq
      simpa using this
    have h3 := congrArg TaskRec.estimated_remaining h2
    have h4 : taskProc.estimated_remaining = none := rfl
    exact hupd (h3.trans h4)
  · rw [hh2]
    show some (get_progress_update 10 taskProc).estimated_remaining.isSome =
      some true
    rw [Option.isSome_iff_ne_none.mpr hupd]

/-- C7 (amended): after creation the fields of a task are mutated only by its own
background run and by the status query, and the status query writes only
the derived estimated_remaining field (every other field is preserved); the
expiry sweep only removes whole records, and the submission handler only
prepends a fresh record — every entry of the store it returns is either the
new record or an untouched entry of the old store. -/
theorem c7_single_writer_amended :
    (∀ (now : ℚ) (t : TaskRec),
      (get_progress_update now t).status = t.status ∧
      (get_progress_update now t).progress = t.progress ∧
      (get_progress_update now t).files_processed = t.files_processed ∧
      (get_progress_update now t).total_files = t.total_files ∧
      (get_progress_update now t).results = t.results ∧
      (get_progress_update now t).error = t.error ∧
      (get_progress_update now t).created_at = t.created_at ∧
      (get_progress_update now t).completed_at = t.completed_at) ∧
    (∀ (now : ℚ) (store : List (String × TaskRec)) (p : String × TaskRec),
      p ∈ cleanup_old_tasks now store → p ∈ store) ∧
    (∀ (ocrSome : Bool) (now : ℚ) (newId : String) (ff : Option (List RawFile))
       (mf : Option String) (lf : List String) (store : List (String × TaskRec))
       (p : String × TaskRec),
      p ∈ (upload_files ocrSome now newId ff mf lf store).2.1 →
      p.1 = newId ∨ p ∈ store) ∧
    (∀ (now : ℚ) (store : List (String × TaskRec)) (id : String)
       (p : String × TaskRec),
      p ∈ (get_progress_handler now store id).1 →
      p ∈ store ∨
        (storeFind store p.1).map (get_progress_update now) = some p.2) := by
  refine ⟨gpu_fields, ?_, ?_, ?_⟩
  · intro now store p hp
    exact ((cleanup_mem now store p).mp hp).1
  · intro ocrSome now newId ff mf lf store p hp
    rcases upload_store_sub ocrSome now newId ff mf lf store p hp with h | h
    · exact Or.inl h
    · exact Or.inr ((cleanup_mem now store p).mp h).1
  · intro now store id p hp
    cases hfind : storeFind store id with
    | none =>
      simp only [get_progress_handler, hfind] at hp
      exact Or.inl hp
    | some t =>
      simp only [get_progress_handler, hfind] at hp
      rw [storeSet] at hp
      obtain ⟨q, hq, hpq⟩ := List.mem_map.mp hp
      by_cases hb : (q.1 == id) = true
      · right
        rw [if_pos hb] at hpq
        rw [← hpq]
        have : q.1 = id := eq_of_beq hb
        simp only [this, hfind]
        rfl
      · left
        rw [Bool.not_eq_true] at hb
        rw [if_neg (by simp [hb])] at hpq
        rw [← hpq]
        exact hq

/-- C7 witness: the status query preserves the status field of a processing
task, and a young record survives the sweep untouched. -/
theorem c7_single_writer_amended_witness :
    (get_progress_update 10 taskProc).status = taskProc.status ∧
    ("a", taskOld) ∈ [("a", taskOld)] := by
  exact ⟨(c7_single_writer_amended.1 10 taskProc).1,
    c7_single_writer_amended.2.1 0 [("a", taskOld)] ("a", taskOld)
      ((cleanup_mem 0 [("a", taskOld)] ("a", taskOld)).mpr
        ⟨by simp, by norm_num [taskOld, task_cleanup_threshold]⟩)⟩

/-- C8 counterexample: the status query performs no sweep: a task whose age
(4000) exceeds the retention threshold (3600) is still found and returned
by the status lookup — even though a sweep at that time would remove it —
refuting the claim that the sweep runs before each status query and that an
over-age task is absent from subsequent status lookups. -/
theorem c8_no_sweep_on_status_cex :
    (get_progress_handler 4000 [("a", taskOld)] "a").2 = some taskOld ∧
    (4000 : ℚ) - taskOld.created_at > task_cleanup_threshold ∧
    cleanup_old_tasks 4000 [("a", taskOld)] = [] := by
  have hage : (4000 : ℚ) - taskOld.created_at > task_cleanup_threshold := by
    norm_num [taskOld, task_cleanup_threshold]
  refine ⟨rfl, hage, ?_⟩
  simp [cleanup_old_tasks, hage]

/-- C8 (amended): the sweep removes exactly the tasks older than the
retention threshold and runs before each submission — an over-age entry is
absent from the store a submission returns — but the status query performs
no sweep: it returns the looked-up record (however old, with only the
estimate field updated) and preserves every stored task id. -/
theorem c8_sweep_only_on_submission :
    (∀ (now : ℚ) (store : List (String × TaskRec)) (p : String × TaskRec),
      p ∈ cleanup_old_tasks now store ↔
        p ∈ store ∧ ¬ now - p.2.created_at > task_cleanup_threshold) ∧
    (∀ (ocrSome : Bool) (now : ℚ) (newId : String) (ff : Option (List RawFile))
       (mf : Option String) (lf : List String) (store : List (String × TaskRec))
       (p : String × TaskRec),
      p ∈ store → now - p.2.created_at > task_cleanup_threshold → p.1 ≠ newId →
      p ∉ (upload_files ocrSome now newId ff mf lf store).2.1) ∧
    (∀ (now : ℚ) (store : List (String × TaskRec)) (id : String) (t : TaskRec),
      storeFind store id = some t →
      (get_progress_handler now store id).2 = some (get_progress_update now t) ∧
      ((get_progress_handler now store id).1).map Prod.fst =
        store.map Prod.fst) := by
  refine ⟨cleanup_mem, ?_, ?_⟩
  · intro ocrSome now newId ff mf lf store p hmem hage hkey hcontra
    rcases upload_store_sub ocrSome now newId ff mf lf store p hcontra with h | h
    · exact hkey h
    · exact ((cleanup_mem now store p).mp h).2 hage
  · intro now store id t hfind
    constructor
    · simp only [get_progress_handler, hfind]
    · simp only [get_progress_handler, hfind]
      exact storeSet_keys store id _

/-- C8 witness: the expired completed task is still served by the status
query, and the sweep membership characterization at a concrete store. -/
theorem c8_sweep_only_on_submission_witness :
    (get_progress_handler 4000 [("a", taskOld)] "a").2 =
      some (get_progress_update 4000 taskOld) ∧
    (("a", taskOld) ∈ cleanup_old_tasks 0 [("a", taskOld)] ↔
      ("a", taskOld) ∈ [("a", taskOld)] ∧
        ¬ (0 : ℚ) - ("a", taskOld).2.created_at > task_cleanup_threshold) := by
  exact ⟨(c8_sweep_only_on_submission.2.2 4000 [("a", taskOld)] "a" taskOld rfl).1,
    c8_sweep_only_on_submission.1 0 [("a", taskOld)] ("a", taskOld)⟩

theorem filter_fileGood : List.filter validFile [fileGood] = [fileGood] := by
  have h : validFile fileGood = true := by decide
  simp [List.filter_cons, h]

/-- C9 counterexample: no admission-control ceiling exists: for every
candidate ceiling N there is a store with exactly N active (non-terminal)
tasks on which a valid submission is still accepted and returns a created
task id — refuting the claim that submissions arriving at the ceiling are
rejected with a busy condition. -/
theorem c9_no_admission_control_cex :
    ¬ ∃ ceiling : Nat,
      ∀ (store : List (String × TaskRec)) (now : ℚ) (newId : String)
        (files : List RawFile) (mf : Option String) (lf : List String),
        activeTasksCount store = ceiling → files.filter validFile ≠ [] →
        (upload_files true now newId (some files) mf lf store).1 ≠
          UploadResp.created newId := by
  rintro ⟨N, h⟩
  have hval : List.filter validFile [fileGood] ≠ [] := by
    rw [filter_fileGood]
    simp
  exact h (mkActiveStore N) 0 "id" [fileGood] none [] (active_mkStore N) hval
    (upload_resp_valid 0 "id" [fileGood] none [] (mkActiveStore N) hval).1

/-- C9 (amended): the submission handler has no admission control: whatever
the store contains, a submission with at least one valid file is accepted —
the response is the created task id and the new record is in the store; no
busy rejection exists. -/
theorem c9_always_accepts (now : ℚ) (newId : String) (files : List RawFile)
    (mf : Option String) (lf : List String) (store : List (String × TaskRec))
    (h : files.filter validFile ≠ []) :
    (upload_files true now newId (some files) mf lf store).1 =
      UploadResp.created newId ∧
    (newId, new_task now (files.filter validFile).length) ∈
      (upload_files true now newId (some files) mf lf store).2.1 := by
  obtain ⟨h1, h2⟩ := upload_resp_valid now newId files mf lf store h
  refine ⟨h1, ?_⟩
  rw [h2]
  exact List.mem_cons_self _ _

/-- C9 witness: a store already holding three active tasks still accepts a
valid single-file submission and records the new task. -/
theorem c9_always_accepts_witness :
    (upload_files true 0 "id" (some [fileGood]) none [] (mkActiveStore 3)).1 =
      UploadResp.created "id" ∧
    ("id", new_task 0 1) ∈
      (upload_files true 0 "id" (some [fileGood]) none [] (mkActiveStore 3)).2.1 := by
  have h := c9_always_accepts 0 "id" [fileGood] none [] (mkActiveStore 3)
    (by rw [filter_fileGood]; simp)
  refine ⟨h.1, ?_⟩
  have h2 := h.2
  rw [filter_fileGood] at h2
  exact h2
